import Mathlib

/-!
Verification of the playlist/lyrics pipeline in `parser.py`.

Python strings are modelled as lists of Unicode code points (`List Nat`).
The character classification and case-mapping functions model the fragment
of Unicode actually exercised by the development: all of ASCII plus the
code points U+0130 (LATIN CAPITAL LETTER I WITH DOT ABOVE, whose Python
`str.lower` image is the two code points U+0069 U+0307) and U+0307
(COMBINING DOT ABOVE, which is matched by neither `\w` nor `\s`).
Machine floats are modelled by exact rational comparison: for the only
float comparison in the source, `ratio() >= 0.8`, the double-precision
comparison agrees with the exact comparison `2*M/T >= 4/5` for every
`T < 1.8e16`, far beyond any actual string length.
-/

/-- Code points of a Lean string literal, used to feed concrete Python
strings into the code-point-level model. -/
def strCodes (s : String) : List Nat := s.data.map Char.toNat

/-- Python whitespace (`str.isspace` and `re \s`) on the modelled fragment:
TAB..CR, FS..US, SPACE, NEL, NBSP. -/
def pyIsSpaceCp (n : Nat) : Bool :=
  (9 ≤ n && n ≤ 13) || (28 ≤ n && n ≤ 32) || n = 133 || n = 160

/-- Python `re \w` (word character) on the modelled fragment: ASCII
alphanumerics, underscore, and U+0130; U+0307 is not a word character. -/
def pyIsWordCp (n : Nat) : Bool :=
  (48 ≤ n && n ≤ 57) || (65 ≤ n && n ≤ 90) || (97 ≤ n && n ≤ 122) || n = 95 || n = 304

/-- Python `str.lower` for one code point on the modelled fragment: ASCII
uppercase maps to lowercase; U+0130 maps to the pair U+0069 U+0307 (this is
its full Unicode lowercase mapping); everything else is fixed. -/
def pyLowerCp (n : Nat) : List Nat :=
  if 65 ≤ n && n ≤ 90 then [n + 32]
  else if n = 304 then [105, 775]
  else [n]

/-- Python `str.lower` on a whole string. -/
def pyLower (l : List Nat) : List Nat := l.flatMap pyLowerCp

/-- Python `str.strip()`: drop leading and trailing whitespace. -/
def pyStripCp (l : List Nat) : List Nat :=
  ((l.dropWhile pyIsSpaceCp).reverse.dropWhile pyIsSpaceCp).reverse

/-! ### difflib.SequenceMatcher (CPython 3.11), with `isjunk = None`

`Song.__eq__` calls `SequenceMatcher(None, a, b).ratio()`.  With
`isjunk = None` the junk set `bjunk` is empty, so the two junk extension
loops of `find_longest_match` never fire and are omitted below; the
"popular element" autojunk purge of `__chain_b` (active only when
`len(b) >= 200`) is kept. -/

/-- difflib `__chain_b`: `b2j[x]` is the increasing list of indices of `x`
in `b`, except that when `len(b) >= 200` the "popular" elements occurring
more than `len(b)/100 + 1` times are purged from the map. -/
def smB2j (b : List Nat) (x : Nat) : List Nat :=
  if 200 ≤ b.length && b.length / 100 + 1 < b.count x then []
  else (List.range b.length).filter (fun j => b.getD j 0 == x)

/-- State of difflib `find_longest_match`: the best block found so far. -/
structure SMBest where
  besti : Nat
  bestj : Nat
  bestsize : Nat
  deriving DecidableEq, Repr

/-- difflib `find_longest_match` main loop: for `i` in `[alo, ahi)` and, for
each one, `j` ranging over the in-window occurrences of `a[i]` in `b`,
maintain `j2len` (length of the longest match ending at `a[i]`, `b[j]`) and
record the first block reaching each new best size.  `j2len` is modelled as
a total function defaulting to `0`, matching `j2len.get(j-1, 0)`. -/
def smMainLoop (a b : List Nat) (alo ahi blo bhi : Nat) : SMBest :=
  ((List.range' alo (ahi - alo)).foldl
    (fun (acc : (Nat → Nat) × SMBest) i =>
      let js := (smB2j b (a.getD i 0)).filter (fun j => blo ≤ j && j < bhi)
      js.foldl
        (fun (inner : (Nat → Nat) × SMBest) j =>
          let k := (if j = 0 then 0 else acc.1 (j - 1)) + 1
          let newmap := fun j' => if j' = j then k else inner.1 j'
          let best := if inner.2.bestsize < k then ⟨i + 1 - k, j + 1 - k, k⟩ else inner.2
          (newmap, best))
        (fun _ => 0, acc.2))
    (fun _ => 0, ⟨alo, blo, 0⟩)).2

/-- difflib `find_longest_match` backward extension loop (the non-junk one;
the junk one is vacuous since `bjunk` is empty).  The fuel is an upper bound
on the number of iterations; `besti` decreases by one per step, so fuel
`besti` always suffices. -/
def smExtendBack (a b : List Nat) (alo blo : Nat) : Nat → SMBest → SMBest
  | 0, st => st
  | fuel + 1, st =>
    if alo < st.besti && blo < st.bestj &&
        a.getD (st.besti - 1) 0 == b.getD (st.bestj - 1) 0 then
      smExtendBack a b alo blo fuel ⟨st.besti - 1, st.bestj - 1, st.bestsize + 1⟩
    else st

/-- difflib `find_longest_match` forward extension loop (the non-junk one).
`besti + bestsize` increases by one per step and stays below `ahi`, so fuel
`ahi` always suffices. -/
def smExtendFwd (a b : List Nat) (ahi bhi : Nat) : Nat → SMBest → SMBest
  | 0, st => st
  | fuel + 1, st =>
    if st.besti + st.bestsize < ahi && st.bestj + st.bestsize < bhi &&
        a.getD (st.besti + st.bestsize) 0 == b.getD (st.bestj + st.bestsize) 0 then
      smExtendFwd a b ahi bhi fuel ⟨st.besti, st.bestj, st.bestsize + 1⟩
    else st

/-- difflib `find_longest_match(alo, ahi, blo, bhi)`. -/
def find_longest_match (a b : List Nat) (alo ahi blo bhi : Nat) : SMBest :=
  let st := smMainLoop a b alo ahi blo bhi
  let st := smExtendBack a b alo blo st.besti st
  smExtendFwd a b ahi bhi ahi st

/-- difflib `get_matching_blocks`, reduced to the total size of all matching
blocks (what `ratio()` consumes): find the longest match, recurse on the
region before it and the region after it.  The fuel is an upper bound on
the recursion depth; each call strictly shrinks the window, so the fuel
used by `smTotalMatches` always suffices. -/
def smMatchTotal (a b : List Nat) : Nat → Nat → Nat → Nat → Nat → Nat
  | 0, _, _, _, _ => 0
  | fuel + 1, alo, ahi, blo, bhi =>
    let m := find_longest_match a b alo ahi blo bhi
    if m.bestsize = 0 then 0
    else
      m.bestsize
      + (if alo < m.besti && blo < m.bestj then
          smMatchTotal a b fuel alo m.besti blo m.bestj else 0)
      + (if m.besti + m.bestsize < ahi && m.bestj + m.bestsize < bhi then
          smMatchTotal a b fuel (m.besti + m.bestsize) ahi (m.bestj + m.bestsize) bhi else 0)

/-- Total number `M` of matched elements between `a` and `b`, as summed by
difflib `ratio()` over `get_matching_blocks()`. -/
def smTotalMatches (a b : List Nat) : Nat :=
  smMatchTotal a b (a.length + b.length + 1) 0 a.length 0 b.length

/-- difflib `ratio() >= 0.8` as the exact rational comparison
`2*M/T >= 4/5` (with `ratio() = 1.0` when both strings are empty, which the
comparison `0 ≤ 0` reproduces).  This agrees with the IEEE-double
comparison of the source for every `T < 1.8e16`. -/
def smRatioGe08 (a b : List Nat) : Bool :=
  2 * (a.length + b.length) ≤ 5 * smTotalMatches a b

/-! ### Song and Playlist data model (`parser.py` lines 30-76) -/

/-- Dataclass `Song(title, artist, album, duration)`; `duration` is a
Python `int`, hence `Int` (the source nowhere forces it non-negative). -/
structure Song where
  title : String
  artist : String
  album : String
  duration : Int
  deriving DecidableEq, Repr

/-- `Song.__eq__`: `a = self.title.lower()`, `b = that.title.lower()`, then
`SequenceMatcher(None, a.lower(), b.lower()).ratio() >= 0.8` — note both
titles are lowercased twice, exactly as in the source. -/
def songEq (self that : Song) : Bool :=
  let a := pyLower (strCodes self.title)
  let b := pyLower (strCodes that.title)
  smRatioGe08 (pyLower a) (pyLower b)

/-- Playlist: `__init__(self, songs, tag)` (tag defaulting to the empty
string) stores the songs and then
assigns `self.tag = None`, ignoring the `tag` argument — so the stored tag
is modelled as `Option String` and is always `none`. -/
structure Playlist where
  songs : List Song
  tag : Option String
  deriving DecidableEq, Repr

/-- `Playlist.__init__`: `self.songs = songs; self.tag = None`. -/
def Playlist.init (songs : List Song) (tag : String) : Playlist :=
  { songs := songs, tag := none }

/-- `playlist_intersection(playlist_1, playlist_2)`: the nested for loop
appending `s1` whenever `s1 == s2`, then `Playlist(song_intersection)`
with the tag argument "intersect". -/
def playlist_intersection (playlist_1 playlist_2 : Playlist) : Playlist :=
  let song_intersection :=
    playlist_1.songs.foldl
      (fun acc s1 =>
        playlist_2.songs.foldl
          (fun acc2 s2 => if songEq s1 s2 then acc2 ++ [s1] else acc2) acc)
      []
  Playlist.init song_intersection "intersect"

/-! ### Duration parsing and Song.create (`parser.py` lines 37-46)

Both the tuple-unpacking failure of `minutes, seconds = raw.split(":")` and
the parse failure of `int(...)` raise `ValueError`; the spec calls the
resulting failure mode FormatError.  The malformed chunk `ValueError` of
the flat-file adapter is the StructuralError of the spec. -/

/-- Error taxonomy of the spec realized by the `ValueError`s of the source. -/
inductive PyErr where
  | formatError : PyErr
  | structural (chunk : List String) : PyErr
  deriving DecidableEq, Repr

/-- Python `str.split(sep)` for a one-character separator `c`:
`"".split(c) = [""]`, and each occurrence of `c` starts a new field. -/
def pySplitChar (c : Nat) : List Nat → List (List Nat)
  | [] => [[]]
  | x :: rest =>
    if x = c then [] :: pySplitChar c rest
    else
      match pySplitChar c rest with
      | [] => [[x]]
      | g :: gs => (x :: g) :: gs

/-- ASCII decimal digit test for `int()`. -/
def pyDigit (n : Nat) : Bool := 48 ≤ n && n ≤ 57

/-- Continuation of the `int()` literal body after at least one digit was
read: further digits, or single underscores strictly between digits. -/
def pyIntDigits : Nat → List Nat → Option Nat
  | acc, [] => some acc
  | acc, c :: rest =>
    if pyDigit c then pyIntDigits (acc * 10 + (c - 48)) rest
    else if c = 95 then
      match rest with
      | [] => none
      | d :: rest' =>
        if pyDigit d then pyIntDigits (acc * 10 + (d - 48)) rest' else none
    else none

/-- Unsigned body of an `int()` literal: one digit, then `pyIntDigits`. -/
def pyIntBody : List Nat → Option Nat
  | [] => none
  | c :: rest => if pyDigit c then pyIntDigits (c - 48) rest else none

/-- Python `int(s)` on the modelled fragment: surrounding whitespace
stripped, one optional sign, then ASCII digits with single underscores
strictly between digits; everything else raises `ValueError` (`none`). -/
def pyInt (l : List Nat) : Option Int :=
  match pyStripCp l with
  | 43 :: rest => (pyIntBody rest).map (fun v => (v : Int))
  | 45 :: rest => (pyIntBody rest).map (fun v => -(v : Int))
  | t => (pyIntBody t).map (fun v => (v : Int))

/-- Argument of `Song._parse_duration`: a Python `str | int`. -/
inductive RawDuration where
  | int (n : Int) : RawDuration
  | str (s : String) : RawDuration
  deriving DecidableEq, Repr

/-- `Song._parse_duration(raw)`: an `int` is returned unchanged; a string is
split on `":"`, unpacked into exactly two parts (`ValueError` otherwise),
and both parts are fed to `int(...)` to yield `minutes * 60 + seconds`. -/
def Song.parse_duration : RawDuration → Except PyErr Int
  | .int n => .ok n
  | .str s =>
    match pySplitChar 58 (strCodes s) with
    | [minutes, seconds] =>
      match pyInt minutes, pyInt seconds with
      | some m, some sec => .ok (m * 60 + sec)
      | _, _ => .error .formatError
    | _ => .error .formatError

/-- `Song.create(title, artist, album, duration)`. -/
def Song.create (title artist album : String) (duration : RawDuration) :
    Except PyErr Song :=
  (Song.parse_duration duration).map (fun d => ⟨title, artist, album, d⟩)

/-! ### Flat-file adapter `parse_filepath` (`parser.py` lines 134-148) -/

/-- The stripped nonblank lines of a chunk:
`[line.strip() for line in song_chunk if line.strip()]`, at code-point level. -/
def strippedChunk (chunk : List String) : List (List Nat) :=
  ((chunk.map (fun l => pyStripCp (strCodes l)))).filter (fun l => l ≠ [])

/-- Successive groups of (at most) five lines, as produced by
`islice(f, 5)` until the file is exhausted. -/
def chunksOf5 : List String → List (List String)
  | [] => []
  | [a] => [[a]]
  | [a, b] => [[a, b]]
  | [a, b, c] => [[a, b, c]]
  | [a, b, c, d] => [[a, b, c, d]]
  | a :: b :: c :: d :: e :: rest => [a, b, c, d, e] :: chunksOf5 rest

/-- Decoding a raw string at code-point level back into a `String`; the code
points produced by `pyStripCp` on real input are valid, and invalid ones
map to the replacement character (never reached on such input). -/
def codesToString (l : List Nat) : String :=
  ⟨l.map (fun n => Char.ofNat n)⟩

/-- Processing of one 5-line chunk of the `while` loop: strip and drop blank
lines, fail with the `ValueError(f"Malformed entry: {song_chunk}")` if the
result is not exactly five lines, else unpack
`track_no, title, artist, album, duration` and call `Song.create`. -/
def parseChunk (chunk : List String) : Except PyErr Song :=
  let stripped := strippedChunk chunk
  match stripped with
  | [_track_no, title, artist, album, duration] =>
    Song.create (codesToString title) (codesToString artist) (codesToString album)
      (.str (codesToString duration))
  | _ => .error (.structural (stripped.map codesToString))

/-- The `while` loop of `parse_filepath` over the list of 5-line chunks,
accumulating songs and propagating the first error. -/
def parseChunks : List (List String) → Except PyErr (List Song)
  | [] => .ok []
  | c :: cs =>
    match parseChunk c with
    | .error e => .error e
    | .ok s =>
      match parseChunks cs with
      | .error e => .error e
      | .ok rest => .ok (s :: rest)

/-- `parse_filepath(file_path)`, with the file contents supplied as its list
of lines: parse each 5-line chunk and return `Playlist(songs)`. -/
def parse_filepath (lines : List String) : Except PyErr Playlist :=
  (parseChunks (chunksOf5 lines)).map (fun songs => Playlist.init songs "")

/-! ### Lyric cache (`parser.py` lines 203-225) -/

/-- Characters surviving the substitution `_filename_rx.sub("", text)` with
`_filename_rx = re.compile(r"[^-\w\s]")`: word characters, the hyphen, and
whitespace. -/
def sanitizeKeep (n : Nat) : Bool := pyIsWordCp n || n = 45 || pyIsSpaceCp n

/-- Python `.replace(" ", "_")` pointwise: only the SPACE character is
replaced, not other whitespace. -/
def spaceToUnderscore (n : Nat) : Nat := if n = 32 then 95 else n

/-- `_sanitize(text)`: remove the characters matching `[^-\w\s]`, strip,
replace `" "` by `"_"`, and lowercase — in exactly that order. -/
def _sanitize (text : List Nat) : List Nat :=
  ((pyStripCp (text.filter sanitizeKeep)).map spaceToUnderscore).flatMap pyLowerCp

/-- Characterization of the code points that `_sanitize` can emit from
ASCII input: kept by the regex, not an ASCII uppercase letter, not a SPACE,
and not U+0130 — precisely the points on which the replace and lowercase
passes act as the identity. -/
def sanitizedChar (n : Nat) : Bool :=
  sanitizeKeep n && !(65 ≤ n && n ≤ 90) && !(n == 32) && !(n == 304)

/-- Cache file name `f"{_sanitize(song.artist)}-{_sanitize(song.title)}.txt"`. -/
def cacheFname (song : Song) : List Nat :=
  _sanitize (strCodes song.artist) ++ [45] ++ _sanitize (strCodes song.title)
    ++ strCodes ".txt"

/-- Observable effects of one `get_lyrics` run, in program order. -/
inductive LyricEvent where
  | providerCall : LyricEvent
  | sleep (seconds : Nat) : LyricEvent
  | cacheWrite (fname : List Nat) (text : String) : LyricEvent
  deriving DecidableEq, Repr

/-- Outcome of `genius.search_song(...)`: a hit carrying the lyric text, a
`None` result, or an exception propagating out of the call. -/
inductive ProviderOutcome where
  | found (lyrics : String) : ProviderOutcome
  | noMatch : ProviderOutcome
  | raises : ProviderOutcome
  deriving DecidableEq, Repr

/-- The on-disk cache directory: an association of file names to contents. -/
def CacheDir : Type := List (List Nat × String)

/-- File-existence check and read for the cache. -/
def cacheLookup (cache : CacheDir) (fname : List Nat) : Option String :=
  match cache with
  | [] => none
  | (f, text) :: rest => if f = fname then some text else cacheLookup rest fname

/-- `cache_path.write_text(...)`. -/
def cacheWriteFile (cache : CacheDir) (fname : List Nat) (text : String) : CacheDir :=
  (fname, text) :: cache

/-- `get_lyrics(song, genius)`, returning the lyric string, the cache
directory afterwards, and the trace of observable effects: on a cache hit
the stored text is returned with no effect at all; otherwise
`search_song` is invoked — if it raises, control jumps to the `except`
handler before `time.sleep(15)` is reached and `""` is returned; if it
returns, the unconditional `time.sleep(15)` runs, and then a non-`None`
result is written to the cache and returned while `None` falls through to
`return ""`. -/
def get_lyrics (song : Song) (provider : ProviderOutcome) (cache : CacheDir) :
    String × CacheDir × List LyricEvent :=
  let fname := cacheFname song
  match cacheLookup cache fname with
  | some text => (text, cache, [])
  | none =>
    match provider with
    | .raises => ("", cache, [.providerCall])
    | .noMatch => ("", cache, [.providerCall, .sleep 15])
    | .found lyrics =>
      (lyrics, cacheWriteFile cache fname lyrics,
        [.providerCall, .sleep 15, .cacheWrite fname lyrics])

/-! ### Theorems -/

/-- Inner loop of `playlist_intersection`: folding over the second
playlist starting from `acc` appends one copy of `s1` per song of `l`
that fuzzy-matches it, in the scan order of `l`. -/
theorem intersection_inner_foldl (s1 : Song) (l : List Song) (acc : List Song) :
    l.foldl (fun acc2 s2 => if songEq s1 s2 then acc2 ++ [s1] else acc2) acc
      = acc ++ List.replicate (l.filter (fun s2 => songEq s1 s2)).length s1 := by
  induction l generalizing acc with
  | nil => simp
  | cons b bs ih =>
    cases h : songEq s1 b
    · simp [List.foldl_cons, List.filter_cons, h, ih]
    · simp [List.foldl_cons, List.filter_cons, h, ih, List.replicate_succ,
        List.append_assoc]

/-- Folding list-append of a pointwise-computed block over a list is the
flat map of the block function. -/
theorem foldl_append_flatMap {α β : Type} (g : α → List β) (l : List α) (acc : List β) :
    l.foldl (fun acc2 x => acc2 ++ g x) acc = acc ++ l.flatMap g := by
  induction l generalizing acc with
  | nil => simp
  | cons a t ih => simp [List.foldl_cons, ih, List.flatMap_cons, List.append_assoc]

/-- Outer loop of `playlist_intersection`: the double fold accumulates, for
each song of the first list in order, one copy per match in the second
list. -/
theorem intersection_outer_foldl (l2 : List Song) (l1 : List Song) (acc : List Song) :
    l1.foldl
      (fun acc s1 =>
        l2.foldl (fun acc2 s2 => if songEq s1 s2 then acc2 ++ [s1] else acc2) acc)
      acc
      = acc ++ l1.flatMap
          (fun s1 => List.replicate (l2.filter (fun s2 => songEq s1 s2)).length s1) := by
  simp only [intersection_inner_foldl]
  exact foldl_append_flatMap _ l1 acc

/-- C1: `playlist_intersection(A, B)` returns the playlist whose song list
is exactly `[a | a in A, b in B, a == b]`: scanning A in order and, for each
`a`, scanning B in order, the A-instance is appended once per matching
B-song, so repeats are consecutive; in particular for `A = [X]` with
`X.title = "abcde"` and `B = [X1, X2]` with titles `"abcdf"` and `"abcdef"`,
both fuzzy-matching X, the result is `[X, X]` of length 2. -/
theorem playlist_intersection_spec :
    (∀ A B : Playlist,
      (playlist_intersection A B).songs
        = A.songs.flatMap
            (fun a => (B.songs.filter (fun b => songEq a b)).map (fun _ => a)))
    ∧ (playlist_intersection
        (Playlist.init [⟨"abcde", "artistA", "albumA", 100⟩] "A")
        (Playlist.init [⟨"abcdf", "artistB1", "albumB1", 200⟩,
                        ⟨"abcdef", "artistB2", "albumB2", 300⟩] "B")).songs
        = [⟨"abcde", "artistA", "albumA", 100⟩, ⟨"abcde", "artistA", "albumA", 100⟩] := by
  constructor
  · intro A B
    simpa [playlist_intersection, Playlist.init] using
      intersection_outer_foldl B.songs A.songs []
  · decide

/-- C4 counterexample: song equality is not symmetric.  With the titles
"abab" and "abbaba" the difflib matching-block total is 3 in one direction
(ratio 0.6) but 4 in the other (ratio 0.8), so only the swapped comparison
reaches the 0.80 threshold. -/
theorem songEq_asymmetric_counterexample :
    songEq ⟨"abab", "ar1", "al1", 1⟩ ⟨"abbaba", "ar2", "al2", 2⟩ = false
    ∧ songEq ⟨"abbaba", "ar2", "al2", 2⟩ ⟨"abab", "ar1", "al1", 1⟩ = true := by
  constructor
  · decide
  · decide

/-- C4 amended: song equality is not symmetric in general — there exist
songs a, b with `equals(a, b) = false` and `equals(b, a) = true`: the
matching-block total of the underlying SequenceMatcher depends on the
argument order. -/
theorem songEq_not_symmetric :
    ∃ a b : Song, songEq a b = false ∧ songEq b a = true :=
  ⟨⟨"abab", "ar1", "al1", 1⟩, ⟨"abbaba", "ar2", "al2", 2⟩, by decide, by decide⟩

/-- C5 counterexample: the example triple named by the claim is not a
witness of non-transitivity: the titles "Love Song" and
"Love Song (Remastered)" do NOT fuzzy-match (matching-block total 9 over
total length 31, ratio 0.58 < 0.80), so the first leg of the proposed chain
already fails. -/
theorem songEq_example_triple_fails :
    songEq ⟨"Love Song", "x", "y", 0⟩ ⟨"Love Song (Remastered)", "x", "y", 0⟩
      = false := by
  decide

/-- C5 amended: song equality is not transitive — there exist songs a, b, c
(titles "abcdex", "abcde", "abcdf": ratios 10/11, 0.8 and 8/11) with
`equals(a, b)` and `equals(b, c)` holding but `equals(a, c)` failing. -/
theorem songEq_not_transitive :
    ∃ a b c : Song,
      songEq a b = true ∧ songEq b c = true ∧ songEq a c = false :=
  ⟨⟨"abcdex", "p", "q", 0⟩, ⟨"abcde", "r", "s", 1⟩, ⟨"abcdf", "t", "u", 2⟩,
    by decide, by decide, by decide⟩

/-- C8: contrary to the claim, a Playlist does not carry the display tag it
was constructed with: `Playlist.__init__` assigns `self.tag = None`,
ignoring its tag argument, so every playlist — including the one
`playlist_intersection` builds with the tag argument "intersect" — has tag
`None`. -/
theorem playlist_tag_always_none :
    (∀ (songs : List Song) (tag : String), (Playlist.init songs tag).tag = none)
    ∧ (playlist_intersection (Playlist.init [] "A") (Playlist.init [] "B")).tag
        ≠ some "intersect" := by
  constructor
  · intro songs tag
    rfl
  · decide

/-- Splitting a separator-free string yields the single field. -/
theorem pySplitChar_no_sep (c : Nat) (l : List Nat) (h : c ∉ l) :
    pySplitChar c l = [l] := by
  induction l with
  | nil => rfl
  | cons x rest ih =>
    have hx : ¬x = c := fun hxc => h (hxc ▸ List.mem_cons_self x rest)
    have hrest : c ∉ rest := fun hr => h (List.mem_cons_of_mem x hr)
    simp [pySplitChar, hx, ih hrest]

/-- Splitting at the first separator occurrence peels off the first field. -/
theorem pySplitChar_append (c : Nat) (l1 l2 : List Nat) (h : c ∉ l1) :
    pySplitChar c (l1 ++ c :: l2) = l1 :: pySplitChar c l2 := by
  induction l1 with
  | nil => simp [pySplitChar]
  | cons x rest ih =>
    have hx : ¬x = c := fun hxc => h (hxc ▸ List.mem_cons_self x rest)
    have hrest : c ∉ rest := fun hr => h (List.mem_cons_of_mem x hr)
    rw [List.cons_append]
    simp [pySplitChar, hx, ih hrest]

/-- The number of fields returned by a split is one more than the number of
separator occurrences. -/
theorem pySplitChar_length (c : Nat) (l : List Nat) :
    (pySplitChar c l).length = l.count c + 1 := by
  induction l with
  | nil => simp [pySplitChar]
  | cons x rest ih =>
    by_cases hx : x = c
    · subst hx
      simp [pySplitChar, List.count_cons, ih]
    · cases hsp : pySplitChar c rest with
      | nil => rw [hsp] at ih; simp at ih
      | cons g gs =>
        rw [hsp] at ih
        simp [pySplitChar, hx, hsp, List.count_cons]
        simp at ih
        omega

/-- Reduction of `Song._parse_duration` on a one-colon string with
colon-free halves. -/
theorem parse_duration_one_colon (m sec : String)
    (hm : (58 : Nat) ∉ strCodes m) (hs : (58 : Nat) ∉ strCodes sec) :
    Song.parse_duration (.str (m ++ ":" ++ sec))
      = match pyInt (strCodes m), pyInt (strCodes sec) with
        | some a, some b => .ok (a * 60 + b)
        | _, _ => .error .formatError := by
  have hdata : strCodes (m ++ ":" ++ sec) = strCodes m ++ 58 :: strCodes sec := by
    simp [strCodes, String.data_append]
  rw [Song.parse_duration, hdata, pySplitChar_append 58 _ _ hm,
    pySplitChar_no_sep 58 _ hs]

/-- C6: duration parsing satisfies the claimed contract:
`parse_duration("3:45") = 225`; every integer passes through unchanged;
a string consisting of exactly one colon with both halves parseable as
Python integers yields `minutes * 60 + seconds`; `"abc"` fails; a string
whose colon count is not one fails; and a one-colon string with an
unparseable half fails — all failures with FormatError instead of a
value. -/
theorem parse_duration_contract :
    Song.parse_duration (.str "3:45") = .ok 225
    ∧ (∀ n : Int, Song.parse_duration (.int n) = .ok n)
    ∧ (∀ m sec : String, (58 : Nat) ∉ strCodes m → (58 : Nat) ∉ strCodes sec →
        ∀ mv sv : Int, pyInt (strCodes m) = some mv → pyInt (strCodes sec) = some sv →
          Song.parse_duration (.str (m ++ ":" ++ sec)) = .ok (mv * 60 + sv))
    ∧ Song.parse_duration (.str "abc") = .error .formatError
    ∧ (∀ s : String, (strCodes s).count 58 ≠ 1 →
        Song.parse_duration (.str s) = .error .formatError)
    ∧ (∀ m sec : String, (58 : Nat) ∉ strCodes m → (58 : Nat) ∉ strCodes sec →
        (pyInt (strCodes m) = none ∨ pyInt (strCodes sec) = none) →
          Song.parse_duration (.str (m ++ ":" ++ sec)) = .error .formatError) := by
  refine ⟨rfl, fun n => rfl, ?_, rfl, ?_, ?_⟩
  · intro m sec hm hs mv sv hmv hsv
    rw [parse_duration_one_colon m sec hm hs, hmv, hsv]
  · intro s h
    rw [Song.parse_duration]
    have hlen : (pySplitChar 58 (strCodes s)).length ≠ 2 := by
      rw [pySplitChar_length]; omega
    split
    · rename_i minutes seconds heq
      rw [heq] at hlen
      simp at hlen
    · rfl
  · intro m sec hm hs hnone
    rw [parse_duration_one_colon m sec hm hs]
    rcases hnone with hn | hn
    · rw [hn]
    · rw [hn]
      cases pyInt (strCodes m) <;> rfl

/-- C6 witness: the one-colon case of `parse_duration_contract` applied to
the concrete string built from "7" and "08". -/
theorem parse_duration_contract_witness :
    Song.parse_duration (.str ("7" ++ ":" ++ "08")) = .ok (7 * 60 + 8) :=
  parse_duration_contract.2.2.1 "7" "08" (by decide) (by decide) 7 8
    (by decide) (by decide)

/-- C7 counterexample: `Song.create` stores a supplied negative integer
duration unchanged, so a successfully constructed Song can carry a
negative duration, contradicting the claimed invariant. -/
theorem song_create_negative_duration :
    Song.create "t" "a" "al" (.int (-5)) = .ok ⟨"t", "a", "al", -5⟩
    ∧ ((-5 : Int) < 0) := by
  exact ⟨rfl, by decide⟩

/-- C7 amended: the stored duration of a Song built by `Song.create` is an
integer equal to the supplied integer, or to `minutes * 60 + seconds` for a
one-colon string; it is non-negative whenever the supplied integer is
non-negative, respectively whenever both parsed halves of the string are
non-negative. -/
theorem song_create_duration_nonneg :
    (∀ t a al : String, ∀ n : Int, 0 ≤ n → ∀ song : Song,
      Song.create t a al (.int n) = .ok song → 0 ≤ song.duration)
    ∧ (∀ t a al m sec : String, (58 : Nat) ∉ strCodes m → (58 : Nat) ∉ strCodes sec →
        ∀ mv sv : Int, pyInt (strCodes m) = some mv → pyInt (strCodes sec) = some sv →
          0 ≤ mv → 0 ≤ sv → ∀ song : Song,
            Song.create t a al (.str (m ++ ":" ++ sec)) = .ok song →
              0 ≤ song.duration) := by
  constructor
  · intro t a al n hn song hok
    have : song = ⟨t, a, al, n⟩ := by
      rw [Song.create, Song.parse_duration] at hok
      simpa [Except.map] using hok.symm
    rw [this]
    exact hn
  · intro t a al m sec hm hs mv sv hmv hsv hmv0 hsv0 song hok
    rw [Song.create, parse_duration_one_colon m sec hm hs, hmv, hsv] at hok
    have : song = ⟨t, a, al, mv * 60 + sv⟩ := by
      simpa [Except.map] using hok.symm
    rw [this]
    have : (0 : Int) ≤ mv * 60 := by positivity
    simp only []
    omega

/-- C7 witness: the integer case of `song_create_duration_nonneg` applied
at duration 3. -/
theorem song_create_duration_nonneg_witness :
    0 ≤ (Song.mk "t" "a" "al" 3).duration :=
  song_create_duration_nonneg.1 "t" "a" "al" 3 (by decide)
    ⟨"t", "a", "al", 3⟩ rfl

/-- C2: `get_lyrics` implements the three-case cache state machine: a cache
hit returns the stored text with no provider call (empty effect trace and
unchanged cache); a miss with a successful provider result writes the text
under the key and returns it; a miss with a provider failure (no match or
exception) writes nothing and returns exactly the empty string. -/
theorem get_lyrics_cache_machine :
    ∀ (song : Song) (provider : ProviderOutcome) (cache : CacheDir),
      (∀ text, cacheLookup cache (cacheFname song) = some text →
        get_lyrics song provider cache = (text, cache, []))
      ∧ (cacheLookup cache (cacheFname song) = none →
          (∀ lyrics, provider = .found lyrics →
            get_lyrics song provider cache
              = (lyrics, cacheWriteFile cache (cacheFname song) lyrics,
                  [.providerCall, .sleep 15, .cacheWrite (cacheFname song) lyrics]))
          ∧ ((provider = .noMatch ∨ provider = .raises) →
              (get_lyrics song provider cache).1 = ""
              ∧ (get_lyrics song provider cache).2.1 = cache)) := by
  intro song provider cache
  constructor
  · intro text htext
    simp only [get_lyrics, htext]
  · intro hmiss
    constructor
    · intro lyrics hfound
      simp only [get_lyrics, hmiss, hfound]
    · intro hfail
      rcases hfail with hf | hf <;> simp [get_lyrics, hmiss, hf]

/-- C2 witness: `get_lyrics_cache_machine` applied to a concrete song with
an empty cache and a successful provider result. -/
theorem get_lyrics_cache_machine_witness :
    get_lyrics ⟨"T", "A", "B", 0⟩ (.found "la la") []
      = ("la la", cacheWriteFile [] (cacheFname ⟨"T", "A", "B", 0⟩) "la la",
          [.providerCall, .sleep 15,
            .cacheWrite (cacheFname ⟨"T", "A", "B", 0⟩) "la la"]) :=
  ((get_lyrics_cache_machine ⟨"T", "A", "B", 0⟩ (.found "la la") []).2
    rfl).1 "la la" rfl

/-- C3 counterexample: a provider call that raises an exception is NOT
followed by the 15-unit delay — the exception transfers control to the
handler before `time.sleep(15)` is reached, so the effect trace of a
cache-miss run with a raising provider is just the provider call, with no
sleep anywhere in it. -/
theorem get_lyrics_delay_counterexample :
    get_lyrics ⟨"T", "A", "B", 0⟩ .raises [] = ("", [], [.providerCall])
    ∧ LyricEvent.sleep 15 ∉ (get_lyrics ⟨"T", "A", "B", 0⟩ .raises []).2.2 := by
  constructor
  · rfl
  · intro hmem
    rw [show (get_lyrics ⟨"T", "A", "B", 0⟩ .raises []).2.2
          = [LyricEvent.providerCall] from rfl] at hmem
    simp at hmem

/-- C3 amended: the fixed 15-unit delay immediately follows every provider
call that returns (successfully or with no match); a provider call that
raises an exception is not followed by the delay; and no delay occurs on a
cache hit. -/
theorem get_lyrics_delay :
    ∀ (song : Song) (provider : ProviderOutcome) (cache : CacheDir),
      ((∃ text, cacheLookup cache (cacheFname song) = some text) →
        (get_lyrics song provider cache).2.2 = [])
      ∧ (cacheLookup cache (cacheFname song) = none →
          (provider ≠ .raises →
            ((get_lyrics song provider cache).2.2.take 2
              = [.providerCall, .sleep 15]))
          ∧ (provider = .raises →
            (get_lyrics song provider cache).2.2 = [.providerCall])) := by
  intro song provider cache
  constructor
  · rintro ⟨text, htext⟩
    simp only [get_lyrics, htext]
  · intro hmiss
    constructor
    · intro hnr
      cases provider with
      | raises => exact absurd rfl hnr
      | noMatch => simp only [get_lyrics, hmiss]; rfl
      | found lyrics => simp only [get_lyrics, hmiss]; rfl
    · intro hr
      simp only [get_lyrics, hmiss, hr]

/-- C3 amended witness: `get_lyrics_delay` applied to a concrete cache miss
with a no-match provider response. -/
theorem get_lyrics_delay_witness :
    (get_lyrics ⟨"T", "A", "B", 0⟩ .noMatch []).2.2.take 2
      = [LyricEvent.providerCall, LyricEvent.sleep 15] :=
  ((get_lyrics_delay ⟨"T", "A", "B", 0⟩ .noMatch []).2 rfl).1 (by simp)

/-- A chunk whose stripped nonblank line count is not five fails with the
structural `ValueError` naming the filtered chunk. -/
theorem parseChunk_short (chunk : List String)
    (h : (strippedChunk chunk).length ≠ 5) :
    parseChunk chunk = .error (.structural ((strippedChunk chunk).map codesToString)) := by
  rw [parseChunk]
  split
  · rename_i a b c d e heq
    rw [heq] at h
    simp at h
  · rfl

/-- If a prefix of chunks parses cleanly and the next chunk fails, the whole
chunk-list parse fails with that error. -/
theorem parseChunks_append_error (cs1 : List (List String)) (c : List String)
    (cs2 : List (List String)) (e : PyErr)
    (h1 : ∃ songs, parseChunks cs1 = .ok songs)
    (h2 : parseChunk c = .error e) :
    parseChunks (cs1 ++ c :: cs2) = .error e := by
  induction cs1 with
  | nil =>
    simp only [List.nil_append, parseChunks, h2]
  | cons c1 rest ih =>
    obtain ⟨songs, hs⟩ := h1
    cases hck : parseChunk c1 with
    | error e1 =>
      rw [parseChunks, hck] at hs
      simp at hs
    | ok s1 =>
      cases hrest : parseChunks rest with
      | error e1 =>
        rw [parseChunks, hck, hrest] at hs
        simp at hs
      | ok srest =>
        rw [List.cons_append, parseChunks, hck, ih ⟨srest, hrest⟩]

/-- C9: the flat-file adapter reads consecutive 5-line chunks: the
well-formed 10-line file below yields the 2-song playlist in file order; if
the chunking of the input contains a chunk whose blank-line-filtered
content has fewer than 5 lines (all earlier chunks parsing cleanly), the
whole parse fails with the StructuralError naming that filtered chunk — no
partial playlist; and an empty input terminates normally with an empty
playlist. -/
theorem parse_filepath_contract :
    parse_filepath ["1", "Song A", "Artist A", "Album A", "3:45",
                    "2", "Song B", "Artist B", "Album B", "4:05"]
      = .ok (Playlist.init
          [⟨"Song A", "Artist A", "Album A", 225⟩,
           ⟨"Song B", "Artist B", "Album B", 245⟩] "")
    ∧ (∀ (lines : List String) (cs1 : List (List String)) (c : List String)
          (cs2 : List (List String)),
        chunksOf5 lines = cs1 ++ c :: cs2 →
        (∃ songs, parseChunks cs1 = .ok songs) →
        (strippedChunk c).length < 5 →
          parse_filepath lines
            = .error (.structural ((strippedChunk c).map codesToString)))
    ∧ parse_filepath [] = .ok (Playlist.init [] "") := by
  refine ⟨rfl, ?_, rfl⟩
  intro lines cs1 c cs2 hchunks hok hlen
  rw [parse_filepath, hchunks,
    parseChunks_append_error cs1 c cs2 _ hok (parseChunk_short c (by omega))]
  rfl

/-- C9 witness: the structural-error clause of `parse_filepath_contract`
applied to a 6-line file whose trailing chunk has a single line. -/
theorem parse_filepath_contract_witness :
    parse_filepath ["1", "T", "A", "B", "3:45", "x"]
      = .error (.structural ((strippedChunk ["x"]).map codesToString)) :=
  parse_filepath_contract.2.1 ["1", "T", "A", "B", "3:45", "x"]
    [["1", "T", "A", "B", "3:45"]] ["x"] [] rfl ⟨_, rfl⟩ (by decide)

/-- The singleton image of a lowercasing step is never empty. -/
theorem pyLowerCp_ne_nil (n : Nat) : pyLowerCp n ≠ [] := by
  unfold pyLowerCp
  split
  · simp
  · split <;> simp

/-- Pointwise facts about one pipeline step of `_sanitize` on ASCII input:
a kept code point lowers (after space replacement) to sanitized code
points only, and a non-whitespace code point lowers to non-whitespace code
points only. -/
theorem sanitize_char_facts :
    ∀ n, n < 128 →
      (sanitizeKeep n = true →
        ∀ m ∈ pyLowerCp (spaceToUnderscore n), sanitizedChar m = true)
      ∧ (pyIsSpaceCp n = false →
        ∀ m ∈ pyLowerCp (spaceToUnderscore n), pyIsSpaceCp m = false) := by
  decide

/-- Membership in a stripped list implies membership in the original. -/
theorem mem_of_mem_pyStripCp {l : List Nat} {m : Nat} (h : m ∈ pyStripCp l) :
    m ∈ l := by
  unfold pyStripCp at h
  rw [List.mem_reverse] at h
  have h2 := (List.dropWhile_sublist (l := (l.dropWhile pyIsSpaceCp).reverse)
    (p := pyIsSpaceCp)).mem h
  rw [List.mem_reverse] at h2
  exact (List.dropWhile_sublist (l := l) (p := pyIsSpaceCp)).mem h2

/-- Every code point of the sanitization of an ASCII string is
sanitized. -/
theorem mem_sanitize {l : List Nat} (hl : ∀ n ∈ l, n < 128) :
    ∀ m ∈ _sanitize l, sanitizedChar m = true := by
  intro m hm
  unfold _sanitize at hm
  rw [List.mem_flatMap] at hm
  obtain ⟨n1, hn1, hm1⟩ := hm
  rw [List.mem_map] at hn1
  obtain ⟨n, hn, rfl⟩ := hn1
  have hnl := mem_of_mem_pyStripCp hn
  rw [List.mem_filter] at hnl
  exact (sanitize_char_facts n (hl n hnl.1)).1 hnl.2 m hm1

/-- The head surviving a `dropWhile` fails the predicate. -/
theorem dropWhile_head_not {α : Type} (p : α → Bool) (l : List α) (h : α)
    (hh : (l.dropWhile p).head? = some h) : p h = false := by
  induction l with
  | nil => simp [List.dropWhile] at hh
  | cons a t ih =>
    rw [List.dropWhile_cons] at hh
    by_cases ha : p a
    · rw [if_pos ha] at hh
      exact ih hh
    · rw [if_neg ha] at hh
      simp at hh
      rw [← hh]
      simpa using ha

/-- A nonempty `dropWhile` keeps the last element of the list. -/
theorem dropWhile_getLast? {α : Type} (p : α → Bool) (l : List α)
    (hne : l.dropWhile p ≠ []) : (l.dropWhile p).getLast? = l.getLast? := by
  induction l with
  | nil => simp at hne
  | cons a t ih =>
    rw [List.dropWhile_cons]
    by_cases ha : p a
    · rw [if_pos ha]
      rw [List.dropWhile_cons, if_pos ha] at hne
      rw [ih hne]
      cases t with
      | nil => simp [List.dropWhile] at hne
      | cons b t2 => rw [List.getLast?_cons_cons]
    · rw [if_neg ha]

/-- The head of a stripped string is not whitespace. -/
theorem pyStripCp_head_not_space (l : List Nat) (h : Nat)
    (hh : (pyStripCp l).head? = some h) : pyIsSpaceCp h = false := by
  unfold pyStripCp at hh
  rw [List.head?_reverse] at hh
  have hne : ((l.dropWhile pyIsSpaceCp).reverse.dropWhile pyIsSpaceCp) ≠ [] := by
    intro h0
    rw [h0] at hh
    simp at hh
  rw [dropWhile_getLast? _ _ hne, List.getLast?_reverse] at hh
  exact dropWhile_head_not _ _ _ hh

/-- The last element of a stripped string is not whitespace. -/
theorem pyStripCp_getLast_not_space (l : List Nat) (h : Nat)
    (hh : (pyStripCp l).getLast? = some h) : pyIsSpaceCp h = false := by
  unfold pyStripCp at hh
  rw [List.getLast?_reverse] at hh
  exact dropWhile_head_not _ _ _ hh

/-- Stripping a string with no whitespace at either end is the identity. -/
theorem pyStripCp_eq_self (l : List Nat)
    (h1 : ∀ h, l.head? = some h → pyIsSpaceCp h = false)
    (h2 : ∀ h, l.getLast? = some h → pyIsSpaceCp h = false) :
    pyStripCp l = l := by
  have d1 : l.dropWhile pyIsSpaceCp = l := by
    cases l with
    | nil => rfl
    | cons a t =>
      rw [List.dropWhile_cons, if_neg]
      simp [h1 a rfl]
  unfold pyStripCp
  rw [d1]
  have d2 : l.reverse.dropWhile pyIsSpaceCp = l.reverse := by
    cases hr : l.reverse with
    | nil => rfl
    | cons a t =>
      have ha : l.getLast? = some a := by
        rw [← List.head?_reverse, hr]
        rfl
      rw [List.dropWhile_cons, if_neg]
      simp [h2 a ha]
  rw [d2, List.reverse_reverse]

/-- The head of a flat map with nowhere-empty blocks lies in the block of
the head. -/
theorem flatMap_head?_mem {α β : Type} (g : α → List β) (l : List α) (m : β)
    (hg : ∀ a ∈ l, g a ≠ [])
    (hm : (l.flatMap g).head? = some m) :
    ∃ a, l.head? = some a ∧ m ∈ g a := by
  cases l with
  | nil => simp at hm
  | cons a t =>
    rw [List.flatMap_cons] at hm
    cases hga : g a with
    | nil => exact absurd hga (hg a (by simp))
    | cons y ys =>
      rw [hga, List.cons_append] at hm
      simp at hm
      exact ⟨a, rfl, by rw [hga, ← hm]; simp⟩

/-- The last element of a flat map with nowhere-empty blocks lies in the
block of the last element. -/
theorem flatMap_getLast?_mem {α β : Type} (g : α → List β) (l : List α) (m : β)
    (hg : ∀ a ∈ l, g a ≠ [])
    (hm : (l.flatMap g).getLast? = some m) :
    ∃ a, l.getLast? = some a ∧ m ∈ g a := by
  induction l with
  | nil => simp at hm
  | cons a t ih =>
    cases t with
    | nil =>
      rw [List.flatMap_cons, List.flatMap_nil, List.append_nil] at hm
      refine ⟨a, rfl, ?_⟩
      rw [← List.head?_reverse] at hm
      exact List.mem_reverse.mp (List.mem_of_mem_head? hm)
    | cons b t2 =>
      have hbt : (b :: t2).flatMap g ≠ [] := by
        rw [List.flatMap_cons]
        intro h0
        exact hg b (by simp) (List.append_eq_nil.mp h0).1
      rw [List.flatMap_cons, List.getLast?_append_of_ne_nil _ hbt] at hm
      obtain ⟨x, hx1, hx2⟩ := ih (fun y hy => hg y (List.mem_cons_of_mem a hy)) hm
      exact ⟨x, by rw [List.getLast?_cons_cons]; exact hx1, hx2⟩

/-- The head of the sanitization of an ASCII string is not whitespace. -/
theorem sanitize_head_not_space (l : List Nat) (hl : ∀ n ∈ l, n < 128)
    (m : Nat) (hm : (_sanitize l).head? = some m) : pyIsSpaceCp m = false := by
  unfold _sanitize at hm
  obtain ⟨n1, hn1, hmem⟩ := flatMap_head?_mem pyLowerCp _ m
    (fun a _ => pyLowerCp_ne_nil a) hm
  rw [List.head?_map] at hn1
  cases hx : (pyStripCp (l.filter sanitizeKeep)).head? with
  | none => rw [hx] at hn1; simp at hn1
  | some n =>
    rw [hx] at hn1
    simp at hn1
    have hnsp := pyStripCp_head_not_space _ _ hx
    have hnl := mem_of_mem_pyStripCp (List.mem_of_mem_head? (Option.mem_def.mpr hx))
    rw [List.mem_filter] at hnl
    rw [← hn1] at hmem
    exact (sanitize_char_facts n (hl n hnl.1)).2 hnsp m hmem

/-- The last code point of the sanitization of an ASCII string is not
whitespace. -/
theorem sanitize_getLast_not_space (l : List Nat) (hl : ∀ n ∈ l, n < 128)
    (m : Nat) (hm : (_sanitize l).getLast? = some m) : pyIsSpaceCp m = false := by
  unfold _sanitize at hm
  obtain ⟨n1, hn1, hmem⟩ := flatMap_getLast?_mem pyLowerCp _ m
    (fun a _ => pyLowerCp_ne_nil a) hm
  rw [List.getLast?_map] at hn1
  cases hx : (pyStripCp (l.filter sanitizeKeep)).getLast? with
  | none => rw [hx] at hn1; simp at hn1
  | some n =>
    rw [hx] at hn1
    simp at hn1
    have hnsp := pyStripCp_getLast_not_space _ _ hx
    have hnl : n ∈ l.filter sanitizeKeep := by
      have := Option.mem_def.mpr hx
      rw [← List.head?_reverse] at this
      exact mem_of_mem_pyStripCp (List.mem_reverse.mp (List.mem_of_mem_head? this))
    rw [List.mem_filter] at hnl
    rw [← hn1] at hmem
    exact (sanitize_char_facts n (hl n hnl.1)).2 hnsp m hmem

/-- Pointwise fixedness of the replace and lowercase passes on sanitized
code points. -/
theorem sanitizedChar_fixed :
    ∀ m, sanitizedChar m = true →
      sanitizeKeep m = true ∧ spaceToUnderscore m = m ∧ pyLowerCp m = [m] := by
  intro m h
  unfold sanitizedChar at h
  simp only [Bool.and_eq_true, Bool.not_eq_true', beq_eq_false_iff_ne, ne_eq,
    Bool.and_eq_false_iff] at h
  obtain ⟨⟨⟨hkeep, hup⟩, h32⟩, h304⟩ := h
  refine ⟨hkeep, ?_, ?_⟩
  · unfold spaceToUnderscore
    rw [if_neg h32]
  · unfold pyLowerCp
    rw [if_neg, if_neg h304]
    simp only [Bool.and_eq_true, decide_eq_true_eq, not_and]
    intro h65
    rcases hup with h | h
    · simp at h; omega
    · simp at h; omega

/-- Mapping a function that fixes every element of a list is the
identity. -/
theorem map_eq_self_of {α : Type} (l : List α) (f : α → α)
    (h : ∀ a ∈ l, f a = a) : l.map f = l := by
  induction l with
  | nil => rfl
  | cons a t ih =>
    rw [List.map_cons, h a (by simp), ih (fun b hb => h b (List.mem_cons_of_mem a hb))]

/-- Flat-mapping a function that sends every element of a list to its
singleton is the identity. -/
theorem flatMap_eq_self_of {α : Type} (l : List α) (g : α → List α)
    (h : ∀ a ∈ l, g a = [a]) : l.flatMap g = l := by
  induction l with
  | nil => rfl
  | cons a t ih =>
    rw [List.flatMap_cons, h a (by simp),
      ih (fun b hb => h b (List.mem_cons_of_mem a hb))]
    rfl

/-- C10 counterexample: `_sanitize` is not idempotent on every string.  On
the one-character string U+0130 the first pass lowercases to U+0069 U+0307,
and the second pass deletes the combining dot U+0307 (matched by the
`[^-\w\s]` regex), so the two results differ. -/
theorem sanitize_not_idempotent :
    _sanitize (_sanitize [304]) ≠ _sanitize [304] := by
  decide

/-- C10 amended: `_sanitize` is idempotent on every ASCII string — the
output of a first pass contains only regex-kept, space-free, lowercase
code points with no whitespace at either end, on which every pass of a
second application is the identity — so cache filenames built from ASCII
artist and title are stable under repeated sanitization. -/
theorem sanitize_idempotent_ascii :
    ∀ l : List Nat, (∀ n ∈ l, n < 128) → _sanitize (_sanitize l) = _sanitize l := by
  intro l hl
  have hmem := mem_sanitize hl
  have hfix : ∀ m ∈ _sanitize l,
      sanitizeKeep m = true ∧ spaceToUnderscore m = m ∧ pyLowerCp m = [m] :=
    fun m hm => sanitizedChar_fixed m (hmem m hm)
  have hfilter : (_sanitize l).filter sanitizeKeep = _sanitize l :=
    List.filter_eq_self.mpr (fun m hm => (hfix m hm).1)
  have hstrip : pyStripCp (_sanitize l) = _sanitize l :=
    pyStripCp_eq_self _ (sanitize_head_not_space l hl)
      (sanitize_getLast_not_space l hl)
  have hmap : (_sanitize l).map spaceToUnderscore = _sanitize l :=
    map_eq_self_of _ _ (fun m hm => (hfix m hm).2.1)
  have hflat : (_sanitize l).flatMap pyLowerCp = _sanitize l :=
    flatMap_eq_self_of _ _ (fun m hm => (hfix m hm).2.2)
  calc _sanitize (_sanitize l)
      = ((pyStripCp ((_sanitize l).filter sanitizeKeep)).map
          spaceToUnderscore).flatMap pyLowerCp := rfl
    _ = _sanitize l := by rw [hfilter, hstrip, hmap, hflat]

/-- C10 amended witness: `sanitize_idempotent_ascii` applied to the ASCII
string "AC/DC". -/
theorem sanitize_idempotent_ascii_witness :
    _sanitize (_sanitize (strCodes "AC/DC")) = _sanitize (strCodes "AC/DC") :=
  sanitize_idempotent_ascii (strCodes "AC/DC") (by decide)
